import Mathlib

/-!
Shallow embedding of the babsecs entity-component store (`src/Manager.hpp`).

The C++ class `ECS` keeps:
  * `entityIndex` — next entity id;
  * `bitIndex` — the bit allocator word (uint32, starts at 1, doubles on each
    registration, overflow wraps modulo 2^32);
  * `entities` — the authoritative list of live entities (id + bitmask);
  * `components` — map from type name to the type-erased component storage
    (here: an association list from entity UUID to the stored value);
  * `componentIndex` — map from type name to the allocated bit flag;
  * `individualComponentVecs` — per-type membership index, a vector of
    entity *copies* pushed at `AddComponent` time.
Exceptions in the C++ code do not roll anything back, so every operation
returns the (possibly partially mutated) state together with an optional
error.  Broadcast events are modelled as an append-only event log.

`bitfield.hpp`, `Entity.hpp` and `PubSub.hpp` are not part of the sources;
their tiny contents are modelled from the spec where noted.
-/

namespace Babsecs

/-- Modelled from the spec: the membership word is a 32-bit unsigned integer
("fixed-width unsigned integer, default 32 bits"); arithmetic wraps mod 2^32. -/
def maskMod : Nat := 2 ^ 32

/-- Modelled from the spec: all 32 bits set, used to express bit clearing on
the fixed-width word. -/
def maskAll : Nat := 2 ^ 32 - 1

namespace bitfield

/-- Modelled from the spec (bitfield.hpp is not under src/): setting a flag is
bitwise OR ("set T's bit in the entity's membership mask"). -/
def Set (bf flag : Nat) : Nat := bf ||| flag

/-- Modelled from the spec (bitfield.hpp is not under src/): clearing a flag
is bitwise AND with the flag's complement in the 32-bit word. -/
def Clear (bf flag : Nat) : Nat := bf &&& (maskAll ^^^ flag)

/-- Modelled from the spec (bitfield.hpp is not under src/): membership test is
"bitwise AND equals the combined mask" (spec section 4.4, step 4). -/
def Has (bf flags : Nat) : Bool := bf &&& flags == flags

end bitfield

/-- Modelled from the spec (Entity.hpp is not under src/): an entity is an id
(`UUID`, assigned sequentially) together with a membership bitmask, initially 0. -/
structure Entity where
  UUID : Nat
  bitfield : Nat
deriving DecidableEq, Repr

/-- Error kinds, one per exception the C++ code can throw:
`ComponentNotRegisteredException`, the `std::runtime_error` thrown when the
entity is not in the live table, and the `std::out_of_range` thrown by the
bit allocator. -/
inductive ECSError where
  | componentNotRegistered (name : String)
  | entityNotFound
  | capacityExceeded
deriving DecidableEq, Repr

/-- The events broadcast through the `EventManager`; the component's type is
identified by its name string, as in the registry. -/
inductive Event (V : Type) where
  | entityCreated (e : Entity)
  | componentAdded (e : Entity) (name : String) (value : V)
  | componentRemoved (e : Entity) (name : String) (value : V)
deriving DecidableEq, Repr

/-- Association-list lookup keyed by decidable equality; models `std::map`
lookup (`find` / `count`). -/
def alookup {α β : Type} [DecidableEq α] (k : α) : List (α × β) → Option β
  | [] => none
  | (k', v) :: rest => if k' = k then some v else alookup k rest

/-- Association-list insert-or-overwrite; models `std::map::operator[] =`. -/
def upsert {α β : Type} [DecidableEq α] (k : α) (v : β) : List (α × β) → List (α × β)
  | [] => [(k, v)]
  | (k', v') :: rest => if k' = k then (k, v) :: rest else (k', v') :: upsert k v rest

/-- Models `std::map::operator[]` used as a read: returns the stored value if
present, otherwise default-constructs, inserts and returns it. -/
def mapGetInsertD {V : Type} [Inhabited V] (k : Nat) (m : List (Nat × V)) :
    V × List (Nat × V) :=
  match alookup k m with
  | some v => (v, m)
  | none => (default, m ++ [(k, default)])

/-- The ECS state: one field per data member of the C++ class, plus the log of
events broadcast so far.  Component values of every registered type live in
`V`; storages are keyed by entity UUID, exactly as the C++ `std::map` keyed by
`EntityComparer` (which compares UUIDs only). -/
structure ECS (V : Type) where
  entityIndex : Nat
  bitIndex : Nat
  entities : List Entity
  components : List (String × List (Nat × V))
  componentIndex : List (String × Nat)
  individualComponentVecs : List (String × List Entity)
  events : List (Event V)
deriving DecidableEq

/-- The `ECS()` constructor: `bitIndex = 1`, `entityIndex = 0`, all
containers empty. -/
def ECS.init (V : Type) : ECS V :=
  { entityIndex := 0, bitIndex := 1, entities := [], components := [],
    componentIndex := [], individualComponentVecs := [], events := [] }

/-- `ECS::ComponentIsRegistered`: the type name has a storage container. -/
def ECS.ComponentIsRegistered {V : Type} (s : ECS V) (name : String) : Bool :=
  (alookup name s.components).isSome

/-- `ECS::CreateEntity`: next sequential id, bitmask 0, appended to the live
list, `EntityCreated` broadcast. -/
def ECS.CreateEntity {V : Type} (s : ECS V) : ECS V × Entity :=
  let e : Entity := ⟨s.entityIndex, 0⟩
  ({ s with entityIndex := s.entityIndex + 1,
            entities := s.entities ++ [e],
            events := s.events ++ [Event.entityCreated e] }, e)

/-- `ECS::RegisterComponent`: a no-op if the name is already registered;
otherwise records the current `bitIndex` as the type's flag, creates an empty
storage, then doubles `bitIndex` (uint32 wrap-around) and throws
`out_of_range` if the doubled value wrapped below the previous one.  Note the
flag and storage are installed before the overflow check. -/
def ECS.RegisterComponent {V : Type} (s : ECS V) (name : String) :
    ECS V × Option ECSError :=
  if s.ComponentIsRegistered name then (s, none)
  else
    let s1 : ECS V :=
      { s with componentIndex := upsert name s.bitIndex s.componentIndex,
               components := upsert name [] s.components }
    let lastIndex := s1.bitIndex
    let s2 : ECS V := { s1 with bitIndex := s1.bitIndex * 2 % maskMod }
    if s2.bitIndex < lastIndex then (s2, some ECSError.capacityExceeded)
    else (s2, none)

/-- Push an entity copy onto the membership index of `name`
(`individualComponentVecs` handling inside the `AddComponent` loop). -/
def vecsPush (name : String) (e : Entity) (vecs : List (String × List Entity)) :
    List (String × List Entity) :=
  match alookup name vecs with
  | some lst => upsert name (lst ++ [e]) vecs
  | none => vecs ++ [(name, [e])]

/-- The `for (Entity& e : this->entities)` loop of `ECS::AddComponent`: every
entity whose UUID matches gets the flag set in place, a copy of the updated
entity is pushed onto the membership index, and `ComponentAdded` (carrying the
caller's `entity` argument) is broadcast.  Returns the updated entities list,
membership indexes, event log, and the `entityFound` flag. -/
def addLoop {V : Type} (flag : Nat) (target : Entity) (name : String) (component : V) :
    List Entity → List (String × List Entity) → List (Event V) → Bool →
    List Entity × List (String × List Entity) × List (Event V) × Bool
  | [], vecs, evs, found => ([], vecs, evs, found)
  | e :: rest, vecs, evs, found =>
    if e.UUID = target.UUID then
      let e' : Entity := ⟨e.UUID, bitfield.Set e.bitfield flag⟩
      let out := addLoop flag target name component rest (vecsPush name e' vecs)
        (evs ++ [Event.componentAdded target name component]) true
      (e' :: out.1, out.2)
    else
      let out := addLoop flag target name component rest vecs evs found
      (e :: out.1, out.2)

/-- `ECS::AddComponent`: throws if the type is unregistered; otherwise first
writes the value into the storage map (before any liveness check!), then runs
the entity loop, and finally throws `runtime_error` if no live entity matched.
The thrown exception does not undo the storage write. -/
def ECS.AddComponent {V : Type} (s : ECS V) (entity : Entity) (name : String)
    (component : V) : ECS V × Option ECSError :=
  if s.ComponentIsRegistered name then
    let container := upsert entity.UUID component ((alookup name s.components).getD [])
    let s1 : ECS V := { s with components := upsert name container s.components }
    let componentFlag := (alookup name s1.componentIndex).getD 0
    let out := addLoop componentFlag entity name component s1.entities
      s1.individualComponentVecs s1.events false
    let s2 : ECS V :=
      { s1 with entities := out.1, individualComponentVecs := out.2.1,
                events := out.2.2.1 }
    if out.2.2.2 then (s2, none) else (s2, some ECSError.entityNotFound)
  else (s, some (ECSError.componentNotRegistered name))

/-- The inner loop of `ECS::RemoveComponent` over the membership index: at the
first entry whose UUID matches, the stored value is read through
`operator[]` (default-inserting when absent), the entry is erased, and the
value to broadcast is returned; otherwise nothing happens. -/
def innerRemove {V : Type} [Inhabited V] (targetUUID : Nat) :
    List Entity → List (Nat × V) → List Entity × List (Nat × V) × Option V
  | [], st => ([], st, none)
  | it :: rest, st =>
    if it.UUID = targetUUID then
      let p := mapGetInsertD targetUUID st
      (rest, p.2, some p.1)
    else
      let out := innerRemove targetUUID rest st
      (it :: out.1, out.2)

/-- The outer loop of `ECS::RemoveComponent` over the live entities: the first
entity whose UUID matches gets the flag cleared in place, the inner loop runs
over the membership index, and the loop breaks.  Returns the updated entities,
updated index vector, updated storage, the broadcast value (if any), and the
`entityFound` flag. -/
def removeOuter {V : Type} [Inhabited V] (flag : Nat) (targetUUID : Nat) :
    List Entity → List Entity → List (Nat × V) →
    List Entity × List Entity × List (Nat × V) × Option V × Bool
  | [], vec, st => ([], vec, st, none, false)
  | e :: rest, vec, st =>
    if e.UUID = targetUUID then
      let e' : Entity := ⟨e.UUID, bitfield.Clear e.bitfield flag⟩
      let out := innerRemove targetUUID vec st
      (e' :: rest, out.1, out.2.1, out.2.2, true)
    else
      let out := removeOuter flag targetUUID rest vec st
      (e :: out.1, out.2)

/-- `ECS::RemoveComponent`: throws if the type is unregistered; otherwise runs
the entity loop and throws `runtime_error` if no live entity matched.  A
`ComponentRemoved` event (carrying the caller's `entity` argument and the
stored value) is broadcast only when the entity was found in the membership
index.  When the type has no membership-index entry at all the C++ code
dereferences the map's end iterator (undefined behaviour); the model treats
that case as iterating an empty vector and leaves the index map unchanged. -/
def ECS.RemoveComponent {V : Type} [Inhabited V] (s : ECS V) (entity : Entity)
    (name : String) : ECS V × Option ECSError :=
  if s.ComponentIsRegistered name then
    let componentFlag := (alookup name s.componentIndex).getD 0
    let vec := (alookup name s.individualComponentVecs).getD []
    let container := (alookup name s.components).getD []
    let out := removeOuter componentFlag entity.UUID s.entities vec container
    let s1 : ECS V :=
      { s with entities := out.1,
               individualComponentVecs :=
                 if (alookup name s.individualComponentVecs).isSome then
                   upsert name out.2.1 s.individualComponentVecs
                 else s.individualComponentVecs,
               components := upsert name out.2.2.1 s.components,
               events :=
                 match out.2.2.2.1 with
                 | some v => s.events ++ [Event.componentRemoved entity name v]
                 | none => s.events }
    if out.2.2.2.2 then (s1, none) else (s1, some ECSError.entityNotFound)
  else (s, some (ECSError.componentNotRegistered name))

/-- `ECS::GetComponent`: throws if the type is unregistered; otherwise scans
the live entities and returns a pointer to the stored value at the first
entity matching the UUID whose bitmask has the flag, else `nullptr`.  The
model returns the pointed-at value (`operator[]` default-constructs when the
storage has no entry, which cannot change any value this model observes). -/
def ECS.GetComponent {V : Type} [Inhabited V] (s : ECS V) (entity : Entity)
    (name : String) : Except ECSError (Option V) :=
  if s.ComponentIsRegistered name then
    let componentFlag := (alookup name s.componentIndex).getD 0
    match s.entities.find?
        (fun e => e.UUID == entity.UUID && bitfield.Has e.bitfield componentFlag) with
    | some _ =>
        Except.ok (some ((alookup entity.UUID
          ((alookup name s.components).getD [])).getD default))
    | none => Except.ok none
  else Except.error (ECSError.componentNotRegistered name)

/-- `ECS::HasComponent`: `GetComponent != nullptr`; exceptions propagate. -/
def ECS.HasComponent {V : Type} [Inhabited V] (s : ECS V) (entity : Entity)
    (name : String) : Except ECSError Bool :=
  (s.GetComponent entity name).map Option.isSome

/-- `std::min_element` over (name, size) pairs with a strict `<` on sizes:
keeps the first element among equal minima. -/
def minBySize : String × Nat → List (String × Nat) → String
  | best, [] => best.1
  | best, x :: rest => if x.2 < best.2 then minBySize x rest else minBySize best rest

/-- `ECS::EntitiesWith`, taking the component names the variadic template
resolves to.  Empty request: all live entities.  Otherwise: every name must be
registered (first failure throws), the requested flags are OR-ed into a
combined field, the shortest membership index is selected as the candidate
pool, and the pool is filtered by `bitfield::Has` on the *copies stored in the
index*.  (In C++ the result holds pointers into a local copy of the pool; the
model returns the entity values.) -/
def ECS.EntitiesWith {V : Type} (s : ECS V) (names : List String) :
    Except ECSError (List Entity) :=
  match names with
  | [] => Except.ok s.entities
  | n0 :: nrest =>
    match (n0 :: nrest).find? (fun n => ! s.ComponentIsRegistered n) with
    | some n => Except.error (ECSError.componentNotRegistered n)
    | none =>
      let sizes := (n0 :: nrest).map
        (fun n => (n, ((alookup n s.individualComponentVecs).getD []).length))
      let field := (n0 :: nrest).foldl
        (fun acc n => bitfield.Set acc ((alookup n s.componentIndex).getD 0)) 0
      let smallest :=
        minBySize (n0, ((alookup n0 s.individualComponentVecs).getD []).length)
          (sizes.drop 1)
      let pool := (alookup smallest s.individualComponentVecs).getD []
      Except.ok (pool.filter (fun e => bitfield.Has e.bitfield field))

/-! ### Association-list lemmas -/

theorem alookup_upsert_self {α β : Type} [DecidableEq α] (k : α) (v : β)
    (l : List (α × β)) : alookup k (upsert k v l) = some v := by
  induction l with
  | nil => simp [upsert, alookup]
  | cons p rest ih =>
    obtain ⟨k', v'⟩ := p
    by_cases h : k' = k
    · simp [upsert, h, alookup]
    · simp [upsert, h, alookup, ih]

theorem alookup_upsert_ne {α β : Type} [DecidableEq α] (k' k : α) (v : β)
    (l : List (α × β)) (h : k' ≠ k) :
    alookup k' (upsert k v l) = alookup k' l := by
  induction l with
  | nil => simp [upsert, alookup, Ne.symm h]
  | cons p rest ih =>
    obtain ⟨k0, v0⟩ := p
    by_cases h0 : k0 = k
    · subst h0
      simp [upsert, alookup, Ne.symm h]
    · simp [upsert, h0, alookup, ih]

theorem upsert_of_alookup_eq {α β : Type} [DecidableEq α] (k : α) (v : β)
    (l : List (α × β)) (h : alookup k l = some v) : upsert k v l = l := by
  induction l with
  | nil => simp [alookup] at h
  | cons p rest ih =>
    obtain ⟨k0, v0⟩ := p
    by_cases h0 : k0 = k
    · subst h0
      simp [alookup] at h
      simp [upsert, h]
    · simp [alookup, h0] at h
      simp [upsert, h0, ih h]

theorem alookup_append_single_ne {α β : Type} [DecidableEq α] (k' k : α) (x : β)
    (l : List (α × β)) (h : k' ≠ k) :
    alookup k' (l ++ [(k, x)]) = alookup k' l := by
  induction l with
  | nil => simp [alookup, Ne.symm h]
  | cons p rest ih =>
    obtain ⟨k0, v0⟩ := p
    by_cases h0 : k0 = k'
    · simp [alookup, h0, ih]
    · simp [alookup, h0, ih]

theorem alookup_vecsPush_ne (n' n : String) (e : Entity)
    (vecs : List (String × List Entity)) (h : n' ≠ n) :
    alookup n' (vecsPush n e vecs) = alookup n' vecs := by
  unfold vecsPush
  cases hv : alookup n vecs with
  | some lst => simp [alookup_upsert_ne n' n _ _ h]
  | none => simp [alookup_append_single_ne n' n _ _ h]

/-! ### Bitfield lemmas (32-bit semantics) -/

theorem set_and_self (b f : Nat) : (b ||| f) &&& f = f := by
  apply Nat.eq_of_testBit_eq
  intro i
  simp only [Nat.testBit_and, Nat.testBit_or]
  cases b.testBit i <;> cases f.testBit i <;> simp

theorem has_set_self (b f : Nat) : bitfield.Has (bitfield.Set b f) f = true := by
  simp [bitfield.Has, bitfield.Set, set_and_self]

theorem clear_and_self (b f : Nat) (hlt : f < 2 ^ 32) :
    bitfield.Clear b f &&& f = 0 := by
  apply Nat.eq_of_testBit_eq
  intro i
  simp only [bitfield.Clear, maskAll, Nat.testBit_and, Nat.testBit_xor,
    Nat.zero_testBit]
  by_cases hi : i < 32
  · rw [Nat.testBit_two_pow_sub_one]
    simp only [hi, decide_True]
    cases b.testBit i <;> cases f.testBit i <;> simp
  · have hf : f.testBit i = false := by
      apply Nat.testBit_lt_two_pow
      calc f < 2 ^ 32 := hlt
        _ ≤ 2 ^ i := Nat.pow_le_pow_right (by omega) (by omega)
    simp [hf]

theorem has_clear_self (b f : Nat) (hf0 : f ≠ 0) (hlt : f < 2 ^ 32) :
    bitfield.Has (bitfield.Clear b f) f = false := by
  simp only [bitfield.Has, clear_and_self b f hlt]
  simp [beq_iff_eq]
  omega

/-! ### Loop characterization lemmas -/

/-- The per-entity update performed by the `AddComponent` loop. -/
def updEnt (u f : Nat) (e : Entity) : Entity :=
  if e.UUID = u then ⟨e.UUID, bitfield.Set e.bitfield f⟩ else e

theorem updEnt_uuid (u f : Nat) (e : Entity) : (updEnt u f e).UUID = e.UUID := by
  unfold updEnt
  split <;> rfl

theorem addLoop_fst {V : Type} (f : Nat) (t : Entity) (n : String) (c : V)
    (l : List Entity) (vecs : List (String × List Entity)) (evs : List (Event V))
    (b : Bool) :
    (addLoop f t n c l vecs evs b).1 = l.map (updEnt t.UUID f) := by
  induction l generalizing vecs evs b with
  | nil => rfl
  | cons e rest ih =>
    by_cases h : e.UUID = t.UUID
    · simp [addLoop, h, updEnt, ih]
    · simp [addLoop, h, updEnt, ih]

theorem addLoop_found {V : Type} (f : Nat) (t : Entity) (n : String) (c : V)
    (l : List Entity) (vecs : List (String × List Entity)) (evs : List (Event V))
    (b : Bool) :
    (addLoop f t n c l vecs evs b).2.2.2 =
      (b || l.any (fun e => e.UUID == t.UUID)) := by
  induction l generalizing vecs evs b with
  | nil => simp [addLoop]
  | cons e rest ih =>
    by_cases h : e.UUID = t.UUID
    · simp [addLoop, h, ih]
    · have h' : (e.UUID == t.UUID) = false := by simp [h]
      simp [addLoop, h, ih, h']

theorem addLoop_vecs {V : Type} (f : Nat) (t : Entity) (n n' : String) (c : V)
    (l : List Entity) (vecs : List (String × List Entity)) (evs : List (Event V))
    (b : Bool) (h : n' ≠ n) :
    alookup n' (addLoop f t n c l vecs evs b).2.1 = alookup n' vecs := by
  induction l generalizing vecs evs b with
  | nil => rfl
  | cons e rest ih =>
    by_cases he : e.UUID = t.UUID
    · simp [addLoop, he, ih, alookup_vecsPush_ne n' n _ _ h]
    · simp [addLoop, he, ih]

theorem addLoop_not_found {V : Type} (f : Nat) (t : Entity) (n : String) (c : V)
    (l : List Entity) (vecs : List (String × List Entity)) (evs : List (Event V))
    (b : Bool) (h : ∀ e ∈ l, e.UUID ≠ t.UUID) :
    addLoop f t n c l vecs evs b = (l, vecs, evs, b) := by
  induction l with
  | nil => rfl
  | cons e rest ih =>
    have he := h e (List.mem_cons_self e rest)
    simp [addLoop, he, ih (fun x hx => h x (List.mem_cons_of_mem e hx))]

theorem removeOuter_found {V : Type} [Inhabited V] (f u : Nat) (l vec : List Entity)
    (st : List (Nat × V)) :
    (removeOuter f u l vec st).2.2.2.2 = l.any (fun e => e.UUID == u) := by
  induction l with
  | nil => simp [removeOuter]
  | cons e rest ih =>
    by_cases h : e.UUID = u
    · simp [removeOuter, h]
    · simp [removeOuter, h, ih]

theorem removeOuter_not_found {V : Type} [Inhabited V] (f u : Nat) (l vec : List Entity)
    (st : List (Nat × V)) (h : ∀ e ∈ l, e.UUID ≠ u) :
    removeOuter f u l vec st = (l, vec, st, none, false) := by
  induction l with
  | nil => rfl
  | cons e rest ih =>
    have he := h e (List.mem_cons_self e rest)
    simp [removeOuter, he, ih (fun x hx => h x (List.mem_cons_of_mem e hx))]

/-! ### Operation characterizations (registered case) -/

/-- The loop output of `AddComponent` on state `s` (the storage write does not
feed into the loop's inputs). -/
def addOut {V : Type} (s : ECS V) (ent : Entity) (n : String) (v : V) :
    List Entity × List (String × List Entity) × List (Event V) × Bool :=
  addLoop ((alookup n s.componentIndex).getD 0) ent n v s.entities
    s.individualComponentVecs s.events false

/-- The loop output of `RemoveComponent` on state `s`. -/
def removeOut {V : Type} [Inhabited V] (s : ECS V) (ent : Entity) (n : String) :
    List Entity × List Entity × List (Nat × V) × Option V × Bool :=
  removeOuter ((alookup n s.componentIndex).getD 0) ent.UUID s.entities
    ((alookup n s.individualComponentVecs).getD [])
    ((alookup n s.components).getD [])

theorem addComponent_eq {V : Type} (s : ECS V) (ent : Entity) (n : String) (v : V)
    (hreg : s.ComponentIsRegistered n = true) :
    s.AddComponent ent n v =
      ({ s with
          components :=
            upsert n (upsert ent.UUID v ((alookup n s.components).getD []))
              s.components,
          entities := (addOut s ent n v).1,
          individualComponentVecs := (addOut s ent n v).2.1,
          events := (addOut s ent n v).2.2.1 },
        if (addOut s ent n v).2.2.2 = true then none
        else some ECSError.entityNotFound) := by
  simp only [ECS.AddComponent, addOut, hreg, if_true]
  split <;> simp_all

theorem removeComponent_eq {V : Type} [Inhabited V] (s : ECS V) (ent : Entity)
    (n : String) (hreg : s.ComponentIsRegistered n = true) :
    s.RemoveComponent ent n =
      ({ s with
          entities := (removeOut s ent n).1,
          individualComponentVecs :=
            if (alookup n s.individualComponentVecs).isSome = true then
              upsert n (removeOut s ent n).2.1 s.individualComponentVecs
            else s.individualComponentVecs,
          components := upsert n (removeOut s ent n).2.2.1 s.components,
          events :=
            match (removeOut s ent n).2.2.2.1 with
            | some w => s.events ++ [Event.componentRemoved ent n w]
            | none => s.events },
        if (removeOut s ent n).2.2.2.2 = true then none
        else some ECSError.entityNotFound) := by
  simp only [ECS.RemoveComponent, removeOut, hreg, if_true]
  split <;> simp_all

/-! ### Remove-loop characterization -/

/-- The per-entity update performed on the matched entity by the
`RemoveComponent` loop. -/
def clrEnt (u f : Nat) (e : Entity) : Entity :=
  if e.UUID = u then ⟨e.UUID, bitfield.Clear e.bitfield f⟩ else e

theorem clrEnt_uuid (u f : Nat) (e : Entity) : (clrEnt u f e).UUID = e.UUID := by
  unfold clrEnt
  split <;> rfl

/-- Clearing the flag on the first UUID match only (the outer loop breaks). -/
def clearFirst (u f : Nat) : List Entity → List Entity
  | [] => []
  | e :: rest =>
    if e.UUID = u then ⟨e.UUID, bitfield.Clear e.bitfield f⟩ :: rest
    else e :: clearFirst u f rest

theorem innerRemove_not_mem {V : Type} [Inhabited V] (u : Nat) (vec : List Entity)
    (st : List (Nat × V)) (h : ∀ x ∈ vec, x.UUID ≠ u) :
    innerRemove u vec st = (vec, st, none) := by
  induction vec with
  | nil => rfl
  | cons x rest ih =>
    have hx := h x (List.mem_cons_self x rest)
    simp [innerRemove, hx, ih (fun y hy => h y (List.mem_cons_of_mem x hy))]

theorem innerRemove_mem_store {V : Type} [Inhabited V] (u : Nat) (vec : List Entity)
    (st : List (Nat × V)) (w : V)
    (hmem : ∃ x ∈ vec, x.UUID = u) (hst : alookup u st = some w) :
    (innerRemove u vec st).2.1 = st ∧ (innerRemove u vec st).2.2 = some w := by
  induction vec with
  | nil =>
    obtain ⟨x, hx, _⟩ := hmem
    cases hx
  | cons x rest ih =>
    by_cases hx : x.UUID = u
    · simp [innerRemove, hx, mapGetInsertD, hst]
    · have hmem' : ∃ y ∈ rest, y.UUID = u := by
        obtain ⟨y, hy, hyu⟩ := hmem
        rcases List.mem_cons.mp hy with h | h
        · exact absurd (h ▸ hyu) hx
        · exact ⟨y, h, hyu⟩
      simp [innerRemove, hx, ih hmem']

theorem removeOuter_any {V : Type} [Inhabited V] (f u : Nat) (l vec : List Entity)
    (st : List (Nat × V)) (h : l.any (fun x => x.UUID == u) = true) :
    removeOuter f u l vec st =
      (clearFirst u f l, (innerRemove u vec st).1, (innerRemove u vec st).2.1,
        (innerRemove u vec st).2.2, true) := by
  induction l with
  | nil => simp at h
  | cons e rest ih =>
    by_cases he : e.UUID = u
    · simp [removeOuter, he, clearFirst]
    · have hb : (e.UUID == u) = false := by simp [he]
      have h' : rest.any (fun x => x.UUID == u) = true := by
        simpa [List.any_cons, hb] using h
      simp [removeOuter, he, clearFirst, ih h']

theorem map_clrEnt_id (u f : Nat) (l : List Entity)
    (h : ∀ x ∈ l, x.UUID ≠ u) : l.map (clrEnt u f) = l := by
  induction l with
  | nil => rfl
  | cons e rest ih =>
    have he := h e (List.mem_cons_self e rest)
    simp [clrEnt, he, ih (fun x hx => h x (List.mem_cons_of_mem e hx))]

theorem clearFirst_eq_map (u f : Nat) (l : List Entity)
    (hnd : (l.map Entity.UUID).Nodup) :
    clearFirst u f l = l.map (clrEnt u f) := by
  induction l with
  | nil => rfl
  | cons e rest ih =>
    rw [List.map_cons] at hnd
    have hnd1 : e.UUID ∉ rest.map Entity.UUID := (List.nodup_cons.mp hnd).1
    have hnd2 : (rest.map Entity.UUID).Nodup := (List.nodup_cons.mp hnd).2
    by_cases he : e.UUID = u
    · have hrest : rest.map (clrEnt u f) = rest := by
        refine map_clrEnt_id u f rest (fun x hx hxu => ?_)
        exact hnd1 (List.mem_map.mpr ⟨x, hx, hxu.trans he.symm⟩)
      simp [clearFirst, clrEnt, he, hrest]
    · simp [clearFirst, clrEnt, he, ih hnd2]

theorem nodup_map_uuid_preserve (g : Entity → Entity)
    (hg : ∀ e, (g e).UUID = e.UUID) (l : List Entity)
    (h : (l.map Entity.UUID).Nodup) : ((l.map g).map Entity.UUID).Nodup := by
  rw [List.map_map]
  have hfun : (Entity.UUID ∘ g) = Entity.UUID := funext fun e => hg e
  rw [hfun]
  exact h

/-! ### find? lemmas for entity scans -/

theorem find?_uuid_none (u : Nat) (q : Entity → Bool) (l : List Entity)
    (h : ∀ y ∈ l, y.UUID ≠ u) :
    l.find? (fun e => e.UUID == u && q e) = none := by
  induction l with
  | nil => rfl
  | cons x rest ih =>
    have hx : x.UUID ≠ u := h x (List.mem_cons_self x rest)
    rw [List.find?_cons_of_neg _ (by simp [hx]),
      ih (fun y hy => h y (List.mem_cons_of_mem x hy))]

theorem find?_uuid (u : Nat) (q : Entity → Bool) (l : List Entity) (e' : Entity)
    (hnd : (l.map Entity.UUID).Nodup) (hmem : e' ∈ l) (huuid : e'.UUID = u) :
    l.find? (fun e => e.UUID == u && q e) =
      (if q e' = true then some e' else none) := by
  induction l with
  | nil => cases hmem
  | cons x rest ih =>
    rw [List.map_cons] at hnd
    have hnd1 : x.UUID ∉ rest.map Entity.UUID := (List.nodup_cons.mp hnd).1
    have hnd2 : (rest.map Entity.UUID).Nodup := (List.nodup_cons.mp hnd).2
    by_cases hx : x.UUID = u
    · have hxe : e' = x := by
        rcases List.mem_cons.mp hmem with h | h
        · exact h
        · exact absurd (List.mem_map.mpr ⟨e', h, huuid.trans hx.symm⟩) hnd1
      subst hxe
      by_cases hq : q e' = true
      · rw [List.find?_cons_of_pos _ (by simp [hx, hq]), if_pos hq]
      · rw [List.find?_cons_of_neg _ (by simp [hq]), if_neg hq]
        refine find?_uuid_none u q rest (fun y hy hyu => ?_)
        exact hnd1 (List.mem_map.mpr ⟨y, hy, hyu.trans hx.symm⟩)
    · have hmem' : e' ∈ rest := by
        rcases List.mem_cons.mp hmem with h | h
        · exact absurd (h ▸ huuid) hx
        · exact h
      rw [List.find?_cons_of_neg _ (by simp [hx])]
      exact ih hnd2 hmem'

/-! ### Concrete states used by witnesses and counterexamples -/

/-- The spec's concrete scenario: register Position and Velocity, create
e0, e1, e2, add Position to e0 and e1, then Velocity to e1 and e2. -/
def scenarioPV : ECS Nat :=
  let s := ((ECS.init Nat).RegisterComponent "Position").1
  let s := (s.RegisterComponent "Velocity").1
  let s := s.CreateEntity.1
  let s := s.CreateEntity.1
  let s := s.CreateEntity.1
  let s := (s.AddComponent ⟨0, 0⟩ "Position" 10).1
  let s := (s.AddComponent ⟨1, 0⟩ "Position" 11).1
  let s := (s.AddComponent ⟨1, 0⟩ "Velocity" 21).1
  (s.AddComponent ⟨2, 0⟩ "Velocity" 22).1

/-- Component "P" registered, no entities created. -/
def stateReg : ECS Nat := ((ECS.init Nat).RegisterComponent "P").1

/-- Component "P" registered, entity e0 created. -/
def stateRegE0 : ECS Nat := stateReg.CreateEntity.1

/-- Register "P", create e0, then add "P" to e0 twice with different values. -/
def stateDup : ECS Nat :=
  let s := (stateRegE0.AddComponent ⟨0, 0⟩ "P" 5).1
  (s.AddComponent ⟨0, 0⟩ "P" 9).1

/-- Register "P", create e0 and e1, add "P" (value 7) to e1 only. -/
def stateE1P : ECS Nat :=
  let s := stateRegE0.CreateEntity.1
  (s.AddComponent ⟨1, 0⟩ "P" 7).1

/-- Register "P", create e0, add "P" (value 7) to e0. -/
def stateP7 : ECS Nat := (stateRegE0.AddComponent ⟨0, 0⟩ "P" 7).1

/-- Thirty-one distinct component type names. -/
def regNames31 : List String :=
  ["c01", "c02", "c03", "c04", "c05", "c06", "c07", "c08", "c09", "c10",
   "c11", "c12", "c13", "c14", "c15", "c16", "c17", "c18", "c19", "c20",
   "c21", "c22", "c23", "c24", "c25", "c26", "c27", "c28", "c29", "c30",
   "c31"]

/-- The state after 31 successful registrations: `bitIndex = 2^31`. -/
def state31 : ECS Nat :=
  regNames31.foldl (fun s n => (s.RegisterComponent n).1) (ECS.init Nat)

/-! ### Claim C1 -/

/-- C1: the claim says `EntitiesWith(Position, Velocity)` returns exactly the
entities having both components — in the spec's own scenario, exactly {e1}.
The code instead filters the Position membership index, whose entry for e1 is
a stale copy made before Velocity was added (bitmask 1, not 3), so the query
returns the empty list even though `HasComponent` reports both components on
e1.  This theorem evaluates the code model at that failing input. -/
theorem entitiesWith_scenario_eval :
    scenarioPV.EntitiesWith ["Position", "Velocity"] = Except.ok [] ∧
    scenarioPV.HasComponent ⟨1, 0⟩ "Position" = Except.ok true ∧
    scenarioPV.HasComponent ⟨1, 0⟩ "Velocity" = Except.ok true ∧
    scenarioPV.EntitiesWith ["Position"] = Except.ok [⟨0, 1⟩, ⟨1, 1⟩] ∧
    scenarioPV.EntitiesWith [] = Except.ok [⟨0, 1⟩, ⟨1, 3⟩, ⟨2, 2⟩] :=
  ⟨rfl, rfl, rfl, rfl, rfl⟩

/-! ### Claim C3 -/

/-- C3: the claim says a second `AddComponent<T>` on the same entity replaces
the value and does not duplicate the entity in T's membership index.  The code
does replace the stored value (9 overwrites 5) but unconditionally appends to
the index, so e0 appears twice. -/
theorem addComponent_duplicate_index_eval :
    (alookup "P" stateDup.individualComponentVecs).getD [] =
      [⟨0, 1⟩, ⟨0, 1⟩] ∧
    alookup 0 ((alookup "P" stateDup.components).getD []) = some 9 :=
  ⟨rfl, rfl⟩

/-! ### Claim C5 -/

set_option maxRecDepth 4000 in
/-- C5: the claim says the first 32 registrations succeed and the 33rd fails
with CapacityExceeded.  In the code the overflow check runs after installing
the flag and storage and before returning, so the 32nd registration call is
the one that throws (even though its flag 2^31 and storage are installed and
usable), and a 33rd registration completes without any error, silently
assigning the degenerate flag 0. -/
theorem registerComponent_capacity_eval :
    (state31.RegisterComponent "c32").2 = some ECSError.capacityExceeded ∧
    alookup "c32" (state31.RegisterComponent "c32").1.componentIndex =
      some (2 ^ 31) ∧
    (state31.RegisterComponent "c32").1.ComponentIsRegistered "c32" = true ∧
    ((state31.RegisterComponent "c32").1.RegisterComponent "c33").2 = none ∧
    alookup "c33"
      ((state31.RegisterComponent "c32").1.RegisterComponent "c33").1.componentIndex =
      some 0 := by
  refine ⟨?_, ?_, ?_, ?_, ?_⟩ <;> decide

/-! ### Claim C2 -/

/-- C2 counterexample: `AddComponent` on a registered type and a non-live
entity fails (the C++ code throws `runtime_error`), yet the storage map has
already been mutated: the claim's "no effect has been applied" is false. -/
theorem addComponent_partial_mutation_cex :
    (stateReg.AddComponent ⟨0, 0⟩ "P" 5).2 = some ECSError.entityNotFound ∧
    (stateReg.AddComponent ⟨0, 0⟩ "P" 5).1.components ≠ stateReg.components :=
  ⟨rfl, by decide⟩

/-- C2 (amended): `RemoveComponent` is failure-atomic, and `AddComponent`
applies no effect when it fails with ComponentNotRegistered; but when
`AddComponent` fails with EntityNotFound the storage-map write has already
happened — the entity list, membership indexes and event log are still
untouched (the result state differs from `s` only in `components`). -/
theorem mutation_failure_atomicity {V : Type} [Inhabited V] (s : ECS V)
    (e : Entity) (n : String) (v : V) :
    ((s.RemoveComponent e n).2.isSome = true → (s.RemoveComponent e n).1 = s) ∧
    ((s.AddComponent e n v).2 = some (ECSError.componentNotRegistered n) →
      (s.AddComponent e n v).1 = s) ∧
    ((s.AddComponent e n v).2 = some ECSError.entityNotFound →
      (s.AddComponent e n v).1 =
        { s with
            components := upsert n
              (upsert e.UUID v ((alookup n s.components).getD []))
              s.components }) := by
  refine ⟨?_, ?_, ?_⟩
  · intro hfail
    cases hreg : s.ComponentIsRegistered n with
    | false => simp [ECS.RemoveComponent, hreg]
    | true =>
      rw [removeComponent_eq s e n hreg] at hfail ⊢
      cases hb : (removeOut s e n).2.2.2.2 with
      | true => simp [hb] at hfail
      | false =>
        have hany : s.entities.any (fun x => x.UUID == e.UUID) = false := by
          have h0 : (removeOut s e n).2.2.2.2 =
              s.entities.any (fun x => x.UUID == e.UUID) := by
            unfold removeOut
            exact removeOuter_found _ _ _ _ _
          rw [← h0, hb]
        have hno : ∀ x ∈ s.entities, x.UUID ≠ e.UUID := by
          intro x hx
          have h1 := List.any_eq_false.mp hany x hx
          simpa using h1
        have hro : removeOut s e n =
            (s.entities, (alookup n s.individualComponentVecs).getD [],
              (alookup n s.components).getD [], none, false) := by
          unfold removeOut
          exact removeOuter_not_found _ _ _ _ _ hno
        obtain ⟨c, hc⟩ : ∃ c, alookup n s.components = some c :=
          Option.isSome_iff_exists.mp hreg
        rw [hro]
        cases hv : alookup n s.individualComponentVecs with
        | some vv => simp [hv, hc, upsert_of_alookup_eq]
        | none => simp [hv, hc, upsert_of_alookup_eq]
  · intro h
    cases hreg : s.ComponentIsRegistered n with
    | false => simp [ECS.AddComponent, hreg]
    | true =>
      rw [addComponent_eq s e n v hreg] at h
      cases hb : (addOut s e n v).2.2.2 with
      | true => simp [hb] at h
      | false => simp [hb] at h
  · intro h
    cases hreg : s.ComponentIsRegistered n with
    | false => simp [ECS.AddComponent, hreg] at h
    | true =>
      rw [addComponent_eq s e n v hreg] at h ⊢
      cases hb : (addOut s e n v).2.2.2 with
      | true => simp [hb] at h
      | false =>
        have hany : s.entities.any (fun x => x.UUID == e.UUID) = false := by
          have h0 : (addOut s e n v).2.2.2 =
              s.entities.any (fun x => x.UUID == e.UUID) := by
            unfold addOut
            rw [addLoop_found]
            simp
          rw [← h0, hb]
        have hno : ∀ x ∈ s.entities, x.UUID ≠ e.UUID := by
          intro x hx
          have h1 := List.any_eq_false.mp hany x hx
          simpa using h1
        have hal : addOut s e n v =
            (s.entities, s.individualComponentVecs, s.events, false) := by
          unfold addOut
          exact addLoop_not_found _ _ _ _ _ _ _ _ hno
        rw [hal]

/-- Witness for C2's amended statement at a concrete input: with "P"
registered and no live entities, a failing remove leaves the state unchanged
and a failing add changes exactly the storage map. -/
theorem mutation_failure_atomicity_witness :
    (stateReg.RemoveComponent ⟨0, 0⟩ "P").2.isSome = true ∧
    (stateReg.RemoveComponent ⟨0, 0⟩ "P").1 = stateReg ∧
    (stateReg.AddComponent ⟨0, 0⟩ "P" 5).2 = some ECSError.entityNotFound ∧
    (stateReg.AddComponent ⟨0, 0⟩ "P" 5).1 =
      { stateReg with
          components := upsert "P"
            (upsert 0 5 ((alookup "P" stateReg.components).getD []))
            stateReg.components } :=
  ⟨by decide,
   (mutation_failure_atomicity stateReg ⟨0, 0⟩ "P" 5).1 (by decide),
   by decide,
   (mutation_failure_atomicity stateReg ⟨0, 0⟩ "P" 5).2.2 (by decide)⟩

/-! ### Claim C6 -/

/-- C6: after a successful `AddComponent<T>(e, v)` on a live entity,
`HasComponent` is true and `GetComponent` returns `v`; and on any state with
unique UUIDs, `GetComponent` for a live entity yields a value exactly when the
entity's bitmask has the type's flag, and when the flag is unset it returns
`Except.ok none` — the `nullptr` result of the C++ code: absence is signalled
without raising any error. -/
theorem addComponent_get_has {V : Type} [Inhabited V] (s : ECS V) (ent e' : Entity)
    (n : String) (v : V)
    (hreg : s.ComponentIsRegistered n = true)
    (hmem : e' ∈ s.entities) (huuid : e'.UUID = ent.UUID)
    (hnd : (s.entities.map Entity.UUID).Nodup) :
    (s.AddComponent ent n v).2 = none ∧
    (s.AddComponent ent n v).1.HasComponent ent n = Except.ok true ∧
    (s.AddComponent ent n v).1.GetComponent ent n = Except.ok (some v) ∧
    ((∃ w, s.GetComponent ent n = Except.ok (some w)) ↔
      bitfield.Has e'.bitfield ((alookup n s.componentIndex).getD 0) = true) ∧
    (bitfield.Has e'.bitfield ((alookup n s.componentIndex).getD 0) = false →
      s.GetComponent ent n = Except.ok none) := by
  have hfound : (addOut s ent n v).2.2.2 = true := by
    unfold addOut
    rw [addLoop_found]
    simp only [Bool.false_or]
    exact List.any_eq_true.mpr ⟨e', hmem, by simp [huuid]⟩
  have heq := addComponent_eq s ent n v hreg
  have hents : (addOut s ent n v).1 =
      s.entities.map (updEnt ent.UUID ((alookup n s.componentIndex).getD 0)) := by
    unfold addOut
    rw [addLoop_fst]
  have hnd' : ∀ g : Nat,
      ((s.entities.map (updEnt ent.UUID g)).map Entity.UUID).Nodup := by
    intro g
    rw [List.map_map]
    have he : (Entity.UUID ∘ updEnt ent.UUID g) = Entity.UUID := by
      funext x
      exact updEnt_uuid ent.UUID g x
    rw [he]
    exact hnd
  have hfind : ∀ g : Nat, (s.entities.map (updEnt ent.UUID g)).find?
      (fun e => e.UUID == ent.UUID && bitfield.Has e.bitfield g) =
      some ⟨e'.UUID, bitfield.Set e'.bitfield g⟩ := by
    intro g
    rw [find?_uuid ent.UUID _ _ (updEnt ent.UUID g e') (hnd' g)
      (List.mem_map_of_mem _ hmem) (by rw [updEnt_uuid]; exact huuid)]
    unfold updEnt
    rw [if_pos huuid]
    simp [has_set_self]
  have hget : (s.AddComponent ent n v).1.GetComponent ent n =
      Except.ok (some v) := by
    rw [heq]
    simp [ECS.GetComponent, ECS.ComponentIsRegistered, alookup_upsert_self,
      hents, hfind]
  have hfind0 : s.entities.find?
      (fun e => e.UUID == ent.UUID &&
        bitfield.Has e.bitfield ((alookup n s.componentIndex).getD 0)) =
      (if bitfield.Has e'.bitfield ((alookup n s.componentIndex).getD 0) = true
        then some e' else none) :=
    find?_uuid ent.UUID _ s.entities e' hnd hmem huuid
  refine ⟨?_, ?_, hget, ?_, ?_⟩
  · rw [heq]
    simp [hfound]
  · simp [ECS.HasComponent, hget, Except.map]
  · by_cases hq :
        bitfield.Has e'.bitfield ((alookup n s.componentIndex).getD 0) = true
    · rw [if_pos hq] at hfind0
      simp [ECS.GetComponent, hreg, hfind0, hq]
    · rw [if_neg hq] at hfind0
      simp [ECS.GetComponent, hreg, hfind0, hq]
  · intro hq
    rw [if_neg (by simp [hq])] at hfind0
    simp [ECS.GetComponent, hreg, hfind0]

/-- Witness for C6 on a concrete state with one live entity; the pre-state
entity has bitmask 0 with flag 1, so the absence conjunct is exercised for
real: `GetComponent` returns `Except.ok none`, not an error. -/
theorem addComponent_get_has_witness :
    stateRegE0.ComponentIsRegistered "P" = true ∧
    (⟨0, 0⟩ : Entity) ∈ stateRegE0.entities ∧
    (stateRegE0.entities.map Entity.UUID).Nodup ∧
    ((stateRegE0.AddComponent ⟨0, 0⟩ "P" 42).2 = none ∧
      (stateRegE0.AddComponent ⟨0, 0⟩ "P" 42).1.HasComponent ⟨0, 0⟩ "P" =
        Except.ok true ∧
      (stateRegE0.AddComponent ⟨0, 0⟩ "P" 42).1.GetComponent ⟨0, 0⟩ "P" =
        Except.ok (some 42) ∧
      ((∃ w, stateRegE0.GetComponent ⟨0, 0⟩ "P" = Except.ok (some w)) ↔
        bitfield.Has (Entity.bitfield ⟨0, 0⟩)
          ((alookup "P" stateRegE0.componentIndex).getD 0) = true) ∧
      (bitfield.Has (Entity.bitfield ⟨0, 0⟩)
          ((alookup "P" stateRegE0.componentIndex).getD 0) = false →
        stateRegE0.GetComponent ⟨0, 0⟩ "P" = Except.ok none)) :=
  ⟨rfl, by decide, by decide,
    addComponent_get_has stateRegE0 ⟨0, 0⟩ ⟨0, 0⟩ "P" 42 rfl (by decide) rfl
      (by decide)⟩

/-! ### Claim C8 -/

/-- C8: membership-index entries are snapshots — an `AddComponent` or
`RemoveComponent` on a different type U never touches type T's index entry
(so the bitmask stored there goes stale), while the entity table's bitmask is
updated; and `EntitiesWith` filters by the index copy's bitmask, not the
table's: in the concrete scenario the table says e1 has both bits (3), the
Position index still holds e1 with bitmask 1, and the Position+Velocity query
comes back empty. -/
theorem index_snapshot_stale {V : Type} [Inhabited V] (s : ECS V) (e : Entity)
    (tn un : String) (v : V) (hne : tn ≠ un) :
    alookup tn (s.AddComponent e un v).1.individualComponentVecs =
      alookup tn s.individualComponentVecs ∧
    alookup tn (s.RemoveComponent e un).1.individualComponentVecs =
      alookup tn s.individualComponentVecs ∧
    scenarioPV.entities = [⟨0, 1⟩, ⟨1, 3⟩, ⟨2, 2⟩] ∧
    alookup "Position" scenarioPV.individualComponentVecs =
      some [⟨0, 1⟩, ⟨1, 1⟩] ∧
    alookup "Velocity" scenarioPV.individualComponentVecs =
      some [⟨1, 3⟩, ⟨2, 2⟩] ∧
    scenarioPV.EntitiesWith ["Position", "Velocity"] = Except.ok [] := by
  refine ⟨?_, ?_, rfl, rfl, rfl, rfl⟩
  · cases hreg : s.ComponentIsRegistered un with
    | false => simp [ECS.AddComponent, hreg]
    | true =>
      rw [addComponent_eq s e un v hreg]
      show alookup tn (addOut s e un v).2.1 = _
      unfold addOut
      exact addLoop_vecs _ _ _ _ _ _ _ _ _ hne
  · cases hreg : s.ComponentIsRegistered un with
    | false => simp [ECS.RemoveComponent, hreg]
    | true =>
      rw [removeComponent_eq s e un hreg]
      show alookup tn
          (if (alookup un s.individualComponentVecs).isSome = true then
            upsert un (removeOut s e un).2.1 s.individualComponentVecs
          else s.individualComponentVecs) = _
      split
      · exact alookup_upsert_ne tn un _ _ hne
      · rfl

/-- Witness for C8 on the concrete scenario state. -/
theorem index_snapshot_stale_witness :
    ("Position" : String) ≠ "Velocity" ∧
    (alookup "Position"
        (scenarioPV.AddComponent ⟨1, 0⟩ "Velocity" 99).1.individualComponentVecs =
      alookup "Position" scenarioPV.individualComponentVecs ∧
    alookup "Position"
        (scenarioPV.RemoveComponent ⟨1, 0⟩ "Velocity").1.individualComponentVecs =
      alookup "Position" scenarioPV.individualComponentVecs ∧
    scenarioPV.entities = [⟨0, 1⟩, ⟨1, 3⟩, ⟨2, 2⟩] ∧
    alookup "Position" scenarioPV.individualComponentVecs =
      some [⟨0, 1⟩, ⟨1, 1⟩] ∧
    alookup "Velocity" scenarioPV.individualComponentVecs =
      some [⟨1, 3⟩, ⟨2, 2⟩] ∧
    scenarioPV.EntitiesWith ["Position", "Velocity"] = Except.ok []) :=
  ⟨by decide,
    index_snapshot_stale scenarioPV ⟨1, 0⟩ "Position" "Velocity" 99 (by decide)⟩

/-! ### Claim C7 -/

/-- C7: `RegisterComponent` is idempotent — a second registration of an
already-registered type name leaves the whole state (flag, storages, bit
allocator) unchanged and reports no error. -/
theorem registerComponent_idempotent {V : Type} (s : ECS V) (n : String)
    (h : s.ComponentIsRegistered n = true) :
    s.RegisterComponent n = (s, none) := by
  simp [ECS.RegisterComponent, h]

/-- Witness for C7 at a concrete registered state. -/
theorem registerComponent_idempotent_witness :
    stateReg.ComponentIsRegistered "P" = true ∧
    stateReg.RegisterComponent "P" = (stateReg, none) :=
  ⟨rfl, registerComponent_idempotent stateReg "P" rfl⟩

/-! ### Claim C9 -/

/-- C9: for a type name never registered, `GetComponent` and `HasComponent`
raise ComponentNotRegistered instead of reporting absence. -/
theorem unregistered_get_has_error {V : Type} [Inhabited V] (s : ECS V)
    (e : Entity) (n : String) (h : s.ComponentIsRegistered n = false) :
    s.GetComponent e n = Except.error (ECSError.componentNotRegistered n) ∧
    s.HasComponent e n = Except.error (ECSError.componentNotRegistered n) := by
  constructor
  · simp [ECS.GetComponent, h]
  · simp [ECS.HasComponent, ECS.GetComponent, h, Except.map]

/-- Witness for C9 on the empty store. -/
theorem unregistered_get_has_error_witness :
    (ECS.init Nat).ComponentIsRegistered "Q" = false ∧
    ((ECS.init Nat).GetComponent ⟨0, 0⟩ "Q" =
        Except.error (ECSError.componentNotRegistered "Q") ∧
      (ECS.init Nat).HasComponent ⟨0, 0⟩ "Q" =
        Except.error (ECSError.componentNotRegistered "Q")) :=
  ⟨rfl, unregistered_get_has_error (ECS.init Nat) ⟨0, 0⟩ "Q" rfl⟩

/-! ### Claim C4 -/

/-- C4 counterexample: with "P" registered, e0 and e1 live and "P" held only
by e1, removing "P" from e0 (which does not have it) completes without any
error — the claim's "fails with ComponentNotPresent" is false (the code has
no such error at all) — though indeed no ComponentRemoved event is
broadcast. -/
theorem removeComponent_silent_noop_cex :
    (stateE1P.RemoveComponent ⟨0, 0⟩ "P").2 = none ∧
    (stateE1P.RemoveComponent ⟨0, 0⟩ "P").1.events = stateE1P.events :=
  ⟨rfl, rfl⟩

/-- C4 (amended): for a live entity absent from a registered type T's
membership index, `RemoveComponent<T>` completes without error (silent no-op)
and broadcasts no ComponentRemoved event. -/
theorem removeComponent_absent_silent {V : Type} [Inhabited V] (s : ECS V)
    (e : Entity) (n : String)
    (hreg : s.ComponentIsRegistered n = true)
    (hlive : ∃ x ∈ s.entities, x.UUID = e.UUID)
    (hnotin : ∀ x ∈ (alookup n s.individualComponentVecs).getD [],
      x.UUID ≠ e.UUID) :
    (s.RemoveComponent e n).2 = none ∧
    (s.RemoveComponent e n).1.events = s.events := by
  have hany : s.entities.any (fun x => x.UUID == e.UUID) = true := by
    obtain ⟨x, hx, hxu⟩ := hlive
    exact List.any_eq_true.mpr ⟨x, hx, by simp [hxu]⟩
  have hro : removeOut s e n =
      (clearFirst e.UUID ((alookup n s.componentIndex).getD 0) s.entities,
        (innerRemove e.UUID ((alookup n s.individualComponentVecs).getD [])
          ((alookup n s.components).getD [])).1,
        (innerRemove e.UUID ((alookup n s.individualComponentVecs).getD [])
          ((alookup n s.components).getD [])).2.1,
        (innerRemove e.UUID ((alookup n s.individualComponentVecs).getD [])
          ((alookup n s.components).getD [])).2.2, true) := by
    unfold removeOut
    exact removeOuter_any _ _ _ _ _ hany
  have hinner : innerRemove e.UUID
      ((alookup n s.individualComponentVecs).getD [])
      ((alookup n s.components).getD []) =
      ((alookup n s.individualComponentVecs).getD [],
        (alookup n s.components).getD [], none) :=
    innerRemove_not_mem e.UUID _ _ hnotin
  rw [removeComponent_eq s e n hreg]
  constructor
  · simp [hro]
  · simp [hro, hinner]

/-- Witness for C4's amended statement on a concrete state. -/
theorem removeComponent_absent_silent_witness :
    stateE1P.ComponentIsRegistered "P" = true ∧
    (∃ x ∈ stateE1P.entities, x.UUID = 0) ∧
    (∀ x ∈ (alookup "P" stateE1P.individualComponentVecs).getD [],
      x.UUID ≠ 0) ∧
    ((stateE1P.RemoveComponent ⟨0, 0⟩ "P").2 = none ∧
      (stateE1P.RemoveComponent ⟨0, 0⟩ "P").1.events = stateE1P.events) :=
  ⟨rfl, by decide, by decide,
    removeComponent_absent_silent stateE1P ⟨0, 0⟩ "P" rfl (by decide)
      (by decide)⟩

/-! ### Claim C10 -/

/-- C10: a successful `RemoveComponent<T>(e)` leaves T's storage map entirely
unchanged (the stored value persists), broadcasts ComponentRemoved carrying
exactly that stored value, makes `HasComponent` false (it reflects only the
membership bitmask, not storage presence), and the persisting entry is only
replaced by a later `AddComponent<T>(e, v2)`. -/
theorem removeComponent_storage_persists {V : Type} [Inhabited V] (s : ECS V)
    (ent : Entity) (n : String) (w v2 : V)
    (hreg : s.ComponentIsRegistered n = true)
    (hstore : alookup ent.UUID ((alookup n s.components).getD []) = some w)
    (hvec : ∃ x ∈ (alookup n s.individualComponentVecs).getD [],
      x.UUID = ent.UUID)
    (hlive : ∃ x ∈ s.entities, x.UUID = ent.UUID)
    (hnd : (s.entities.map Entity.UUID).Nodup)
    (hf0 : (alookup n s.componentIndex).getD 0 ≠ 0)
    (hflt : (alookup n s.componentIndex).getD 0 < 2 ^ 32) :
    (s.RemoveComponent ent n).2 = none ∧
    (s.RemoveComponent ent n).1.components = s.components ∧
    (s.RemoveComponent ent n).1.events =
      s.events ++ [Event.componentRemoved ent n w] ∧
    (s.RemoveComponent ent n).1.HasComponent ent n = Except.ok false ∧
    alookup ent.UUID
      ((alookup n
        ((s.RemoveComponent ent n).1.AddComponent ent n v2).1.components).getD [])
      = some v2 := by
  have hany : s.entities.any (fun x => x.UUID == ent.UUID) = true := by
    obtain ⟨x, hx, hxu⟩ := hlive
    exact List.any_eq_true.mpr ⟨x, hx, by simp [hxu]⟩
  have hro : removeOut s ent n =
      (clearFirst ent.UUID ((alookup n s.componentIndex).getD 0) s.entities,
        (innerRemove ent.UUID ((alookup n s.individualComponentVecs).getD [])
          ((alookup n s.components).getD [])).1,
        (innerRemove ent.UUID ((alookup n s.individualComponentVecs).getD [])
          ((alookup n s.components).getD [])).2.1,
        (innerRemove ent.UUID ((alookup n s.individualComponentVecs).getD [])
          ((alookup n s.components).getD [])).2.2, true) := by
    unfold removeOut
    exact removeOuter_any _ _ _ _ _ hany
  have hinner := innerRemove_mem_store ent.UUID
    ((alookup n s.individualComponentVecs).getD [])
    ((alookup n s.components).getD []) w hvec hstore
  obtain ⟨c, hc⟩ : ∃ c, alookup n s.components = some c :=
    Option.isSome_iff_exists.mp hreg
  have heq := removeComponent_eq s ent n hreg
  have hcomp2 : (s.RemoveComponent ent n).1.components = s.components := by
    rw [heq]
    show upsert n (removeOut s ent n).2.2.1 s.components = s.components
    rw [hro]
    rw [hinner.1]
    rw [hc]
    exact upsert_of_alookup_eq n c s.components (by rw [hc])
  have herr : (s.RemoveComponent ent n).2 = none := by
    rw [heq]
    simp [hro]
  have hevents : (s.RemoveComponent ent n).1.events =
      s.events ++ [Event.componentRemoved ent n w] := by
    rw [heq]
    show (match (removeOut s ent n).2.2.2.1 with
      | some x => s.events ++ [Event.componentRemoved ent n x]
      | none => s.events) = _
    rw [hro]
    rw [hinner.2]
  have hentsr : (s.RemoveComponent ent n).1.entities =
      s.entities.map (clrEnt ent.UUID ((alookup n s.componentIndex).getD 0)) := by
    rw [heq]
    show (removeOut s ent n).1 = _
    rw [hro]
    exact clearFirst_eq_map _ _ _ hnd
  have hfindc : (s.entities.map
        (clrEnt ent.UUID ((alookup n s.componentIndex).getD 0))).find?
      (fun e => e.UUID == ent.UUID &&
        bitfield.Has e.bitfield ((alookup n s.componentIndex).getD 0)) =
      none := by
    obtain ⟨x, hx, hxu⟩ := hlive
    rw [find?_uuid ent.UUID _ _
      (clrEnt ent.UUID ((alookup n s.componentIndex).getD 0) x)
      (nodup_map_uuid_preserve _ (clrEnt_uuid _ _) _ hnd)
      (List.mem_map_of_mem _ hx) (by rw [clrEnt_uuid]; exact hxu)]
    have hcx : clrEnt ent.UUID ((alookup n s.componentIndex).getD 0) x =
        ⟨x.UUID, bitfield.Clear x.bitfield ((alookup n s.componentIndex).getD 0)⟩ := by
      unfold clrEnt
      rw [if_pos hxu]
    rw [hcx]
    simp [has_clear_self _ _ hf0 hflt]
  have hregr : (s.RemoveComponent ent n).1.ComponentIsRegistered n = true := by
    show (alookup n (s.RemoveComponent ent n).1.components).isSome = true
    rw [hcomp2]
    exact hreg
  have hidxr : (s.RemoveComponent ent n).1.componentIndex = s.componentIndex := by
    rw [heq]
  have hget : (s.RemoveComponent ent n).1.GetComponent ent n = Except.ok none := by
    rw [ECS.GetComponent, if_pos hregr, hidxr, hentsr]
    simp [hfindc]
  refine ⟨herr, hcomp2, hevents, ?_, ?_⟩
  · rw [ECS.HasComponent, hget]
    rfl
  · rw [addComponent_eq _ ent n v2 hregr]
    show alookup ent.UUID
      ((alookup n (upsert n
        (upsert ent.UUID v2
          ((alookup n (s.RemoveComponent ent n).1.components).getD []))
        (s.RemoveComponent ent n).1.components)).getD []) = some v2
    rw [alookup_upsert_self]
    show alookup ent.UUID (upsert ent.UUID v2 _) = some v2
    exact alookup_upsert_self _ _ _

/-- Witness for C10 on a concrete state: remove "P" (stored value 7) from e0,
then add value 9 back. -/
theorem removeComponent_storage_persists_witness :
    stateP7.ComponentIsRegistered "P" = true ∧
    alookup 0 ((alookup "P" stateP7.components).getD []) = some 7 ∧
    (∃ x ∈ (alookup "P" stateP7.individualComponentVecs).getD [], x.UUID = 0) ∧
    (∃ x ∈ stateP7.entities, x.UUID = 0) ∧
    (stateP7.entities.map Entity.UUID).Nodup ∧
    (alookup "P" stateP7.componentIndex).getD 0 ≠ 0 ∧
    (alookup "P" stateP7.componentIndex).getD 0 < 2 ^ 32 ∧
    ((stateP7.RemoveComponent ⟨0, 0⟩ "P").2 = none ∧
      (stateP7.RemoveComponent ⟨0, 0⟩ "P").1.components = stateP7.components ∧
      (stateP7.RemoveComponent ⟨0, 0⟩ "P").1.events =
        stateP7.events ++ [Event.componentRemoved ⟨0, 0⟩ "P" 7] ∧
      (stateP7.RemoveComponent ⟨0, 0⟩ "P").1.HasComponent ⟨0, 0⟩ "P" =
        Except.ok false ∧
      alookup 0
        ((alookup "P"
          ((stateP7.RemoveComponent ⟨0, 0⟩ "P").1.AddComponent ⟨0, 0⟩ "P"
            9).1.components).getD [])
        = some 9) :=
  ⟨rfl, rfl, by decide, by decide, by decide, by decide, by decide,
    removeComponent_storage_persists stateP7 ⟨0, 0⟩ "P" 7 9 rfl rfl (by decide)
      (by decide) (by decide) (by decide) (by decide)⟩

end Babsecs
